import Mathlib

/-!
# Verification of the Spark remote-administration server core

Shallow embedding of the session/registry/event/bridge substrate of the
Spark server (Go sources under server/, utils/), together with proofs of
the specification claims about it.  Bytes are modelled as `Nat`, byte
sequences as `List Nat`, Go maps (the sharded concurrent map `cmap`) as
association lists, and fallible Go functions as `Except`/`Option`.
-/

namespace Spark

/-! ## Lightweight XOR cipher — utils/utils.go, func XOR

Go: if the key is empty the data is returned unchanged, otherwise every
byte is XORed with the key byte at the cyclic position `i % len(key)`. -/

/-- Helper: XOR the bytes of a list with the cyclic key stream, starting
at absolute position `i` (mirrors the loop index of the Go code). -/
def xorFrom (key : List Nat) (i : Nat) : List Nat → List Nat
  | [] => []
  | b :: rest => (b ^^^ key.getD (i % key.length) 0) :: xorFrom key (i + 1) rest

/-- utils.XOR: cyclic XOR of data with key; empty key returns data unchanged. -/
def XOR (data key : List Nat) : List Nat :=
  if key.length = 0 then data else xorFrom key 0 data

/-- server/handler/utility: SimpleEncrypt fetches the session `Secret`
(absent → nil) and applies utils.XOR with it. -/
def SimpleEncrypt (data : List Nat) (secret : Option (List Nat)) : Option (List Nat) :=
  match secret with
  | none => none
  | some s => some (XOR data s)

/-- server/handler/utility: SimpleDecrypt, same body as SimpleEncrypt. -/
def SimpleDecrypt (data : List Nat) (secret : Option (List Nat)) : Option (List Nat) :=
  match secret with
  | none => none
  | some s => some (XOR data s)

theorem xorFrom_xorFrom (key : List Nat) (i : Nat) (l : List Nat) :
    xorFrom key i (xorFrom key i l) = l := by
  induction l generalizing i with
  | nil => rfl
  | cons b rest ih =>
      simp only [xorFrom, ih]
      rw [Nat.xor_assoc, Nat.xor_self, Nat.xor_zero]

/-! ## Binary frame check — utils/utils.go, func CheckBinaryPack -/

/-- utils.CheckBinaryPack: returns (service, op, isBinary).  Binary iff the
frame has at least 8 bytes, starts with the magic 34 22 19 17, and byte 4
(the service) is 20 or 21; byte 5 is the op code. -/
def CheckBinaryPack (data : List Nat) : Nat × Nat × Bool :=
  if 8 ≤ data.length then
    if data.take 4 = [34, 22, 19, 17] then
      if data.getD 4 0 = 20 ∨ data.getD 4 0 = 21 then
        (data.getD 4 0, data.getD 5 0, true)
      else (0, 0, false)
    else (0, 0, false)
  else (0, 0, false)

/-! ## Device registry lookup — server/common/event.go, func CheckDevice -/

/-- The registry value type: modules.Device restricted to the fields the
registry logic reads (the stable device ID) or overwrites wholesale on
DEVICE_UPDATE (collapsed into `info`). -/
structure Device where
  id : String
  info : Nat
deriving DecidableEq

/-- The device registry common.Devices: connection UUID → Device.  The Go
cmap is modelled as an association list; iteration order of the model is
list order (cmap iteration order is unspecified). -/
abbrev Registry := List (String × Device)

/-- common.CheckDevice: with a non-empty connUUID that is not yet a key,
accept it; with an empty connUUID, scan for the first device whose ID
matches and return its connection UUID; otherwise return ("", false). -/
def CheckDevice (reg : Registry) (deviceID connUUID : String) : String × Bool :=
  if 0 < connUUID.length then
    if (reg.find? (fun p => p.1 == connUUID)).isNone then (connUUID, true)
    else ("", false)
  else
    match reg.find? (fun p => p.2.id == deviceID) with
    | some p => (p.1, decide (0 < p.1.length))
    | none => ("", false)

/-! ## Theorems for claims C10, C6, C5 -/

/-- C10: the XOR lightweight cipher is an involution: XOR(XOR(d,k),k) = d,
an empty key leaves the data unchanged, SimpleEncrypt and SimpleDecrypt
are the same function, and applying it twice with the session secret
restores the original frame. -/
theorem c10_xor_involution (data key : List Nat) (secret : Option (List Nat)) :
    XOR (XOR data key) key = data ∧
    XOR data [] = data ∧
    SimpleEncrypt data secret = SimpleDecrypt data secret ∧
    (SimpleEncrypt data (some key)).bind (fun c => SimpleDecrypt c (some key)) = some data := by
  have hxor : ∀ d k, XOR (XOR d k) k = d := by
    intro d k
    by_cases h : k.length = 0
    · simp [XOR, h]
    · simp [XOR, h, xorFrom_xorFrom]
  refine ⟨hxor data key, by simp [XOR], ?_, ?_⟩
  · cases secret <;> simp [SimpleEncrypt, SimpleDecrypt]
  · simp [SimpleEncrypt, SimpleDecrypt, hxor]

/-- C6 (amended): the binary check classifies a byte sequence as binary
iff it is at least 8 bytes long, its first four bytes are the magic
34 22 19 17, and byte 4 (the service) is 20 or 21; in that case it
returns the service and the op code (byte 5). -/
theorem c6_binary_frame_classification (data : List Nat) :
    ((CheckBinaryPack data).2.2 = true ↔
      8 ≤ data.length ∧ data.take 4 = [34, 22, 19, 17] ∧
        (data.getD 4 0 = 20 ∨ data.getD 4 0 = 21)) ∧
    (8 ≤ data.length → data.take 4 = [34, 22, 19, 17] →
      (data.getD 4 0 = 20 ∨ data.getD 4 0 = 21) →
      CheckBinaryPack data = (data.getD 4 0, data.getD 5 0, true)) := by
  constructor
  · unfold CheckBinaryPack
    split
    · split
      · split
        · simp_all
        · simp_all
      · simp_all
    · simp_all
  · intro h1 h2 h3
    unfold CheckBinaryPack
    rw [if_pos h1, if_pos h2, if_pos h3]

/-- C6 counterexample: a 6-byte sequence whose first four bytes are the
magic (with service byte 20 and op byte 0) is nevertheless classified as
not binary, because the check also requires at least 8 bytes — refuting
the claim that the first four bytes alone decide the classification. -/
theorem c6_counterexample :
    ([34, 22, 19, 17, 20, 0] : List Nat).take 4 = [34, 22, 19, 17] ∧
    ([34, 22, 19, 17, 20, 0] : List Nat).getD 4 0 = 20 ∧
    (CheckBinaryPack [34, 22, 19, 17, 20, 0]).2.2 = false := by decide

/-- C6 witness: a well-formed 8-byte terminal frame is classified binary. -/
theorem c6_witness :
    CheckBinaryPack [34, 22, 19, 17, 21, 1, 7, 7] = (21, 1, true) :=
  (c6_binary_frame_classification [34, 22, 19, 17, 21, 1, 7, 7]).2
    (by decide) (by decide) (by decide)

/-- C5 (amended): CheckDevice accepts a non-empty connection UUID that is
not a key of the registry; a non-empty connection UUID that is already a
key yields ("", false) without any scan; only an empty connection UUID
triggers the scan for a device whose ID matches, returning the owning
connection UUID when one exists. -/
theorem c5_check_device (reg : Registry) (deviceID connUUID : String) :
    (0 < connUUID.length → reg.find? (fun p => p.1 == connUUID) = none →
      CheckDevice reg deviceID connUUID = (connUUID, true)) ∧
    (0 < connUUID.length → (reg.find? (fun p => p.1 == connUUID)).isSome →
      CheckDevice reg deviceID connUUID = ("", false)) ∧
    (connUUID = "" → ∀ p, reg.find? (fun q => q.2.id == deviceID) = some p →
      0 < p.1.length → CheckDevice reg deviceID connUUID = (p.1, true)) ∧
    (connUUID = "" → reg.find? (fun q => q.2.id == deviceID) = none →
      CheckDevice reg deviceID connUUID = ("", false)) := by
  refine ⟨?_, ?_, ?_, ?_⟩
  · intro h1 h2
    simp [CheckDevice, h1, h2]
  · intro h1 h2
    simp only [CheckDevice, if_pos h1]
    cases hfind : List.find? (fun p => p.1 == connUUID) reg with
    | none => rw [hfind] at h2; simp at h2
    | some v => simp [hfind]
  · intro h1 p hp hlen
    have hlen0 : ¬ 0 < connUUID.length := by simp [h1]
    simp [CheckDevice, hlen0, hp, hlen]
  · intro h1 hnone
    have hlen0 : ¬ 0 < connUUID.length := by simp [h1]
    simp [CheckDevice, hlen0, hnone]

/-- C5 witness: an unknown non-empty connection UUID is accepted, and an
empty connection UUID triggers the scan and finds the owner. -/
theorem c5_witness :
    CheckDevice [("u1", { id := "d1", info := 0 })] "d2" "u2" = ("u2", true) ∧
    CheckDevice [("u1", { id := "d1", info := 0 })] "d1" "" = ("u1", true) := by
  constructor
  · exact (c5_check_device [("u1", ⟨"d1", 0⟩)] "d2" "u2").1 (by decide) (by decide)
  · exact (c5_check_device [("u1", ⟨"d1", 0⟩)] "d1" "").2.2.1 rfl
      ("u1", ⟨"d1", 0⟩) (by decide) (by decide)

/-- C5 counterexample: with registry [("u", d)] where d.id = "d", the call
CheckDevice "d" "u" returns ("", false) — the claim predicts the scan
would find the device and return ("u", true). -/
theorem c5_counterexample :
    CheckDevice [("u", { id := "d", info := 0 })] "d" "u" = ("", false) ∧
    (("", false) : String × Bool) ≠ ("u", true) := by decide

/-! ## Event correlator — server/common/event.go

The correlator table common.events maps a trigger string to an event
record.  Of the record, the registry logic reads only the recorded
connection UUID (the finish/remove channels are modelled by the
`Resolution` outcome below), so the table is trigger → connection UUID. -/

abbrev EventTable := List (String × String)

/-- cmap Set: replace any entry under the key, then add the new binding. -/
def eventsSet (tbl : EventTable) (trigger conn : String) : EventTable :=
  tbl.filter (fun p => p.1 != trigger) ++ [(trigger, conn)]

/-- cmap Remove. -/
def eventsRemove (tbl : EventTable) (trigger : String) : EventTable :=
  tbl.filter (fun p => p.1 != trigger)

/-- common.CallEvent: look up pack.Event; require, when a session is
supplied, that its UUID equals the recorded connection; only then invoke
the callback (the returned Bool) and signal the finish rendezvous.  The
table itself is never modified. -/
def CallEvent (tbl : EventTable) (packEvent : String) (session : Option String) :
    Bool × EventTable :=
  if packEvent.length = 0 then (false, tbl)
  else
    match tbl.find? (fun p => p.1 == packEvent) with
    | none => (false, tbl)
    | some ev =>
        match session with
        | some u => if u = ev.2 then (true, tbl) else (false, tbl)
        | none => (true, tbl)

/-- The value CallEvent sends into the finish channel of a one-shot event
(the Go code sends the literal true). -/
def callEventSignal : Bool := true

/-- The value RemoveEvent sends into the remove channel: the optional
status argument when supplied, false otherwise. -/
def removeEventSignal (ok : Option Bool) : Bool := ok.getD false

/-- Which of the three select branches of AddEventOnce fires first:
the finish channel (callback already ran), the remove channel (with the
remover's optional status), or the timeout timer. -/
inductive Resolution where
  | callbackFired : Resolution
  | removed : Option Bool → Resolution
  | timedOut : Resolution
deriving DecidableEq

/-- common.AddEventOnce: install the one-shot event under the trigger,
then block on the select; every branch removes the trigger from the table
and returns the branch's value (finish value, remove status, or false on
timeout).  The RemoveEvent path removes the trigger itself before
signalling; the subsequent removal in the select branch is idempotent. -/
def AddEventOnce (tbl : EventTable) (connUUID trigger : String) (res : Resolution) :
    Bool × EventTable :=
  let tbl1 := eventsSet tbl trigger connUUID
  match res with
  | .callbackFired => (callEventSignal, eventsRemove tbl1 trigger)
  | .removed st => (removeEventSignal st, eventsRemove (eventsRemove tbl1 trigger) trigger)
  | .timedOut => (false, eventsRemove tbl1 trigger)

theorem find?_eventsRemove (tbl : EventTable) (trigger : String) :
    (eventsRemove tbl trigger).find? (fun p => p.1 == trigger) = none := by
  rw [List.find?_eq_none]
  intro p hp
  simp only [eventsRemove, List.mem_filter] at hp
  simpa using hp.2

/-- C2: AddEventOnce resolves its caller by exactly the branch that fired:
true when the callback fired, the remover's supplied status (false when
none is supplied) when a remover fired, false on timeout; and in every
exit path the trigger is removed from the correlator table. -/
theorem c2_add_event_once (tbl : EventTable) (connUUID trigger : String) (res : Resolution) :
    (res = .callbackFired → (AddEventOnce tbl connUUID trigger res).1 = true) ∧
    (∀ st, res = .removed st →
      (AddEventOnce tbl connUUID trigger res).1 = st.getD false) ∧
    (res = .timedOut → (AddEventOnce tbl connUUID trigger res).1 = false) ∧
    ((AddEventOnce tbl connUUID trigger res).2.find? (fun p => p.1 == trigger) = none) := by
  refine ⟨?_, ?_, ?_, ?_⟩
  · intro h; subst h; rfl
  · intro st h; subst h; rfl
  · intro h; subst h; rfl
  · cases res <;> simp [AddEventOnce, find?_eventsRemove]

/-- C2 witness: a concrete removed-with-no-status resolution returns
false and leaves no entry for the trigger. -/
theorem c2_witness :
    (AddEventOnce [("t0", "c0")] "c1" "t1" (.removed none)).1 = (none : Option Bool).getD false ∧
    (AddEventOnce [("t0", "c0")] "c1" "t1" .callbackFired).2.find?
      (fun p => p.1 == "t1") = none :=
  ⟨(c2_add_event_once [("t0", "c0")] "c1" "t1" (.removed none)).2.1 none rfl,
   (c2_add_event_once [("t0", "c0")] "c1" "t1" .callbackFired).2.2.2⟩

/-- C7: CallEvent invokes the callback only when the supplied session's
UUID equals the connection UUID recorded in the event; on any other
session the callback stays uninvoked; and the event table is unchanged by
CallEvent in every case. -/
theorem c7_session_affinity (tbl : EventTable) (packEvent : String)
    (session : Option String) :
    ((CallEvent tbl packEvent session).2 = tbl) ∧
    (∀ u, session = some u →
      ((CallEvent tbl packEvent session).1 = true →
        ∃ p, tbl.find? (fun q => q.1 == packEvent) = some p ∧ p.2 = u)) ∧
    (∀ u p, session = some u → tbl.find? (fun q => q.1 == packEvent) = some p →
      u ≠ p.2 → (CallEvent tbl packEvent session).1 = false) := by
  refine ⟨?_, ?_, ?_⟩
  · unfold CallEvent
    split
    · rfl
    · split
      · rfl
      · split
        · split <;> rfl
        · rfl
  · intro u hu hfire
    subst hu
    by_cases h0 : packEvent.length = 0
    · simp [CallEvent, h0] at hfire
    · cases hev : tbl.find? (fun p => p.1 == packEvent) with
      | none => simp [CallEvent, h0, hev] at hfire
      | some ev =>
          by_cases heq : u = ev.2
          · exact ⟨ev, rfl, heq.symm⟩
          · simp [CallEvent, h0, hev, heq] at hfire
  · intro u p hu hp hne
    subst hu
    by_cases h0 : packEvent.length = 0
    · simp [CallEvent, h0]
    · simp [CallEvent, h0, hp, hne]

/-- C7 witness: a packet delivered on a third session leaves the callback
uninvoked, while the owning session fires it; the table is unchanged. -/
theorem c7_witness :
    (CallEvent [("t", "owner")] "t" (some "intruder")).1 = false ∧
    (CallEvent [("t", "owner")] "t" (some "intruder")).2 = [("t", "owner")] :=
  ⟨(c7_session_affinity [("t", "owner")] "t" (some "intruder")).2.2 "intruder"
      ("t", "owner") rfl (by decide) (by decide),
   (c7_session_affinity [("t", "owner")] "t" (some "intruder")).1⟩

/-! ## Device registry state machine — server/handler/utility/utility.go
OnDevicePack and server/main.go wsOnDisconnect -/

/-- cmap Set on the device registry: replace any entry under the key. -/
def regSet (reg : Registry) (u : String) (d : Device) : Registry :=
  reg.filter (fun p => p.1 != u) ++ [(u, d)]

/-- cmap Remove on the device registry. -/
def regRemove (reg : Registry) (u : String) : Registry :=
  reg.filter (fun p => p.1 != u)

/-- OnDevicePack, act DEVICE_UP: find the first session already holding
this device ID (it also gets an OFFLINE packet and is closed, which does
not touch the registry); if its uuid is non-empty, remove its entry; then
register the new session. -/
def deviceUp (reg : Registry) (u : String) (d : Device) : Registry :=
  match reg.find? (fun p => p.2.id == d.id) with
  | some ex => if 0 < ex.1.length then regSet (regRemove reg ex.1) u d else regSet reg u d
  | none => regSet reg u d

/-- OnDevicePack, other acts (DEVICE_UPDATE): update the mutable stats of
the device stored under the session uuid in place; the device ID is never
written. -/
def deviceUpdate (reg : Registry) (u : String) (info : Nat) : Registry :=
  reg.map (fun p => if p.1 = u then (p.1, { p.2 with info := info }) else p)

/-- wsOnDisconnect: tear down sub-sessions (registry-neutral) and remove
the session's registration. -/
def wsOnDisconnect (reg : Registry) (u : String) : Registry :=
  regRemove reg u

/-- Registry states reachable by any sequence of DEVICE_UP registrations,
DEVICE_UPDATE updates and session disconnects, starting from the empty
registry.  Session uuids are generated by melody's generateUUID (36
formatted hex chars), hence never empty. -/
inductive Reachable : Registry → Prop where
  | empty : Reachable []
  | up (reg : Registry) (u : String) (d : Device) (hu : 0 < u.length) :
      Reachable reg → Reachable (deviceUp reg u d)
  | update (reg : Registry) (u : String) (info : Nat) :
      Reachable reg → Reachable (deviceUpdate reg u info)
  | down (reg : Registry) (u : String) :
      Reachable reg → Reachable (wsOnDisconnect reg u)

/-- Number of registry entries whose device ID is `did`. -/
def DevCount (reg : Registry) (did : String) : Nat :=
  reg.countP (fun p => p.2.id == did)

theorem countP_filter_le {α : Type} (p q : α → Bool) (l : List α) :
    (l.filter q).countP p ≤ l.countP p := by
  induction l with
  | nil => simp
  | cons a l ih =>
      rw [List.countP_cons]
      by_cases hq : q a = true
      · rw [List.filter_cons_of_pos hq, List.countP_cons]
        omega
      · rw [List.filter_cons_of_neg (by simp [hq])]
        omega

theorem devCount_regRemove_le (reg : Registry) (u did : String) :
    DevCount (regRemove reg u) did ≤ DevCount reg did :=
  countP_filter_le _ _ reg

theorem devCount_regSet (reg : Registry) (u : String) (d : Device) (did : String) :
    DevCount (regSet reg u d) did =
      DevCount (regRemove reg u) did + (if d.id = did then 1 else 0) := by
  unfold DevCount regSet regRemove
  rw [List.countP_append]
  by_cases h : d.id = did <;> simp [List.countP_cons, h]

theorem devCount_eq_zero_of_find?_none (reg : Registry) (did : String)
    (h : reg.find? (fun p => p.2.id == did) = none) : DevCount reg did = 0 := by
  rw [List.find?_eq_none] at h
  unfold DevCount
  rw [List.countP_eq_zero]
  intro a ha
  exact h a ha

theorem devCount_remove_found (reg : Registry) (did : String) (ex : String × Device)
    (h1 : DevCount reg did ≤ 1)
    (h2 : reg.find? (fun p => p.2.id == did) = some ex) :
    DevCount (regRemove reg ex.1) did = 0 := by
  induction reg with
  | nil => simp at h2
  | cons a l ih =>
      by_cases ha : (a.2.id == did) = true
      · have hfc : List.find? (fun p => p.2.id == did) (a :: l) = some a :=
          List.find?_cons_of_pos l ha
        rw [hfc] at h2
        have hexa : ex = a := by
          injection h2 with h2
          exact h2.symm
        subst hexa
        have hl : DevCount l did = 0 := by
          unfold DevCount at h1 ⊢
          rw [List.countP_cons] at h1
          simp only [ha, if_true] at h1
          omega
        unfold regRemove
        rw [List.filter_cons_of_neg (by simp)]
        have hle := devCount_regRemove_le l ex.1 did
        unfold regRemove at hle
        omega
      · have hfc : List.find? (fun p => p.2.id == did) (a :: l) =
            List.find? (fun p => p.2.id == did) l :=
          List.find?_cons_of_neg l ha
        rw [hfc] at h2
        have h1l : DevCount l did ≤ 1 := by
          unfold DevCount at h1 ⊢
          rw [List.countP_cons] at h1
          omega
        have hrec := ih h1l h2
        unfold regRemove
        by_cases hkey : (a.1 != ex.1) = true
        · have hfp : List.filter (fun p => p.1 != ex.1) (a :: l) =
              a :: List.filter (fun p => p.1 != ex.1) l :=
            List.filter_cons_of_pos hkey
          rw [hfp]
          unfold DevCount
          rw [List.countP_cons, if_neg ha]
          unfold DevCount regRemove at hrec
          omega
        · have hfp : List.filter (fun p => p.1 != ex.1) (a :: l) =
              List.filter (fun p => p.1 != ex.1) l :=
            List.filter_cons_of_neg (by simpa using hkey)
          rw [hfp]
          exact hrec

theorem devCount_deviceUpdate (reg : Registry) (u : String) (info : Nat) (did : String) :
    DevCount (deviceUpdate reg u info) did = DevCount reg did := by
  induction reg with
  | nil => rfl
  | cons a l ih =>
      unfold DevCount deviceUpdate at ih ⊢
      rw [List.map_cons, List.countP_cons, List.countP_cons]
      have hid : ((if a.1 = u then (a.1, { a.2 with info := info }) else a).2.id == did)
        = (a.2.id == did) := by
        by_cases h : a.1 = u <;> simp [h]
      rw [hid, ih]

/-- The full inductive invariant: every registered uuid is non-empty and
every device ID owns at most one entry. -/
def RegInv (reg : Registry) : Prop :=
  (∀ p ∈ reg, 0 < p.1.length) ∧ ∀ did, DevCount reg did ≤ 1

theorem regInv_regSet (reg : Registry) (u : String) (d : Device)
    (hu : 0 < u.length) (hkeys : ∀ p ∈ reg, 0 < p.1.length) :
    ∀ p ∈ regSet reg u d, 0 < p.1.length := by
  intro p hp
  unfold regSet at hp
  rw [List.mem_append] at hp
  cases hp with
  | inl h => exact hkeys p (List.mem_of_mem_filter h)
  | inr h =>
      rw [List.mem_singleton] at h
      subst h
      exact hu

theorem reachable_regInv (reg : Registry) (h : Reachable reg) : RegInv reg := by
  induction h with
  | empty => exact ⟨by simp, fun did => by simp [DevCount]⟩
  | up reg u d hu _ ih =>
      obtain ⟨ihkeys, ihcount⟩ := ih
      constructor
      · unfold deviceUp
        cases hfind : List.find? (fun p => p.2.id == d.id) reg with
        | none =>
            exact regInv_regSet reg u d hu ihkeys
        | some ex =>
            have hex : 0 < ex.1.length :=
              ihkeys ex (List.mem_of_find?_eq_some hfind)
            show ∀ p ∈ (if 0 < ex.1.length then regSet (regRemove reg ex.1) u d
              else regSet reg u d), 0 < p.1.length
            rw [if_pos hex]
            refine regInv_regSet _ u d hu ?_
            intro p hp
            exact ihkeys p (List.mem_of_mem_filter hp)
      · intro did
        unfold deviceUp
        cases hfind : List.find? (fun p => p.2.id == d.id) reg with
        | none =>
            show DevCount (regSet reg u d) did ≤ 1
            rw [devCount_regSet]
            by_cases hdid : d.id = did
            · subst hdid
              rw [if_pos rfl]
              have h0 : DevCount reg d.id = 0 := devCount_eq_zero_of_find?_none _ _ hfind
              have := devCount_regRemove_le reg u d.id
              omega
            · rw [if_neg hdid]
              have := devCount_regRemove_le reg u did
              have := ihcount did
              omega
        | some ex =>
            have hex : 0 < ex.1.length :=
              ihkeys ex (List.mem_of_find?_eq_some hfind)
            show DevCount (if 0 < ex.1.length then regSet (regRemove reg ex.1) u d
              else regSet reg u d) did ≤ 1
            rw [if_pos hex, devCount_regSet]
            by_cases hdid : d.id = did
            · subst hdid
              rw [if_pos rfl]
              have h0 : DevCount (regRemove reg ex.1) d.id = 0 :=
                devCount_remove_found reg d.id ex (ihcount d.id) hfind
              have h1 := devCount_regRemove_le (regRemove reg ex.1) u d.id
              omega
            · rw [if_neg hdid]
              have h1 := devCount_regRemove_le (regRemove reg ex.1) u did
              have h2 := devCount_regRemove_le reg ex.1 did
              have := ihcount did
              omega
  | update reg u info _ ih =>
      obtain ⟨ihkeys, ihcount⟩ := ih
      constructor
      · intro p hp
        unfold deviceUpdate at hp
        rw [List.mem_map] at hp
        obtain ⟨q, hq, hqp⟩ := hp
        subst hqp
        have h1 : (if q.1 = u then (q.1, { q.2 with info := info }) else q).1 = q.1 := by
          by_cases h : q.1 = u <;> simp [h]
        rw [h1]
        exact ihkeys q hq
      · intro did
        rw [devCount_deviceUpdate]
        exact ihcount did
  | down reg u _ ih =>
      obtain ⟨ihkeys, ihcount⟩ := ih
      constructor
      · intro p hp
        exact ihkeys p (List.mem_of_mem_filter hp)
      · intro did
        calc DevCount (wsOnDisconnect reg u) did ≤ DevCount reg did :=
              devCount_regRemove_le reg u did
          _ ≤ 1 := ihcount did

/-- C1: registry singleton invariant — at every reachable registry state
(any sequence of DEVICE_UP, DEVICE_UPDATE and disconnect steps) each
device ID is held by at most one (connection-UUID, device) entry; the
DEVICE_UP handler preserves this by evicting the previous owner before
registering the new session. -/
theorem c1_registry_singleton (reg : Registry) (h : Reachable reg) (did : String) :
    DevCount reg did ≤ 1 :=
  (reachable_regInv reg h).2 did

/-- C1 witness: two successive DEVICE_UP registrations of the same device
ID from different sessions leave at most one entry for that ID. -/
theorem c1_witness :
    DevCount (deviceUp (deviceUp [] "u1" { id := "d", info := 0 }) "u2"
      { id := "d", info := 0 }) "d" ≤ 1 :=
  c1_registry_singleton _
    (Reachable.up _ "u2" _ (by decide)
      (Reachable.up _ "u1" _ (by decide) Reachable.empty)) "d"

/-! ## Operator command dispatch — server/handler/utility/utility.go
ExecDeviceCmd and CallDevice

Both endpoints send the command packet with a fresh trigger and block in
AddEventOnce for 5 seconds.  The device's reply (or its absence) fully
determines the HTTP status written, which is what is modelled: the
callback writes 200 on code 0 and 500 with the device message otherwise;
an AddEventOnce that returns false (timeout) takes the not-ok branch. -/

/-- The device's observable behaviour for one dispatched command. -/
inductive DeviceReply where
  | replied (code : Int) (msg : String)
  | timedOut
deriving DecidableEq

def invalidParameterMsg : String := "COMMON.INVALID_PARAMETER"

def responseTimeoutMsg : String := "COMMON.RESPONSE_TIMEOUT"

/-- ExecDeviceCmd: 400 on empty cmd; otherwise 200 on device code 0,
500 with the device message on non-zero code, 504 with the response
timeout message when AddEventOnce times out. -/
def ExecDeviceCmdResp (cmd : String) (r : DeviceReply) : Nat × String :=
  if cmd.length = 0 then (400, invalidParameterMsg)
  else
    match r with
    | .replied c m => if c ≠ 0 then (500, m) else (200, "")
    | .timedOut => (504, responseTimeoutMsg)

/-- The act whitelist of CallDevice. -/
def callDeviceActions : List String :=
  ["LOCK", "LOGOFF", "HIBERNATE", "SUSPEND", "RESTART", "SHUTDOWN", "OFFLINE"]

/-- CallDevice: act is the route parameter after strings.ToUpper (the
handler upper-cases it first); reject an empty or unlisted act with 400;
then 200 on device code 0, 500 with the device message on non-zero
code — but a timeout is taken as the client being offline and is
reported as success with 200. -/
def CallDeviceResp (act : String) (r : DeviceReply) : Nat × String :=
  if act.length = 0 then (400, invalidParameterMsg)
  else if (callDeviceActions.contains act) = false then (400, invalidParameterMsg)
  else
    match r with
    | .replied c m => if c ≠ 0 then (500, m) else (200, "")
    | .timedOut => (200, "")

/-- C4 (amended): for a valid act and a non-empty command, a device reply
with code 0 yields 200 at both endpoints and a non-zero reply yields 500
with the device's message at both; on timeout /api/device/exec returns
504, but /api/device/:act treats the missing reply as the client being
offline and returns 200 (not 504 as the claim states). -/
theorem c4_dispatch_status (act cmd : String) (r : DeviceReply)
    (hact : (callDeviceActions.contains act) = true) (hcmd : 0 < cmd.length) :
    (∀ m, r = .replied 0 m →
      ExecDeviceCmdResp cmd r = (200, "") ∧ CallDeviceResp act r = (200, "")) ∧
    (∀ c m, r = .replied c m → c ≠ 0 →
      ExecDeviceCmdResp cmd r = (500, m) ∧ CallDeviceResp act r = (500, m)) ∧
    (r = .timedOut →
      ExecDeviceCmdResp cmd r = (504, responseTimeoutMsg) ∧
      CallDeviceResp act r = (200, "")) := by
  have hcmd0 : ¬ cmd.length = 0 := by omega
  have hmem : act ∈ callDeviceActions := List.mem_of_elem_eq_true hact
  have hlen : ¬ act.length = 0 := by
    have hmem2 := hmem
    simp only [callDeviceActions, List.mem_cons, List.mem_singleton] at hmem2
    rcases hmem2 with h | h | h | h | h | h | h | h <;> first
      | (rw [h]; decide)
      | simp at h
  refine ⟨?_, ?_, ?_⟩
  · intro m hr
    subst hr
    constructor
    · simp [ExecDeviceCmdResp, hcmd0]
    · simp [CallDeviceResp, hlen, hmem]
  · intro c m hr hc
    subst hr
    constructor
    · simp [ExecDeviceCmdResp, hcmd0, hc]
    · simp [CallDeviceResp, hlen, hmem, hc]
  · intro hr
    subst hr
    constructor
    · simp [ExecDeviceCmdResp, hcmd0]
    · simp [CallDeviceResp, hlen, hmem]

/-- C4 witness: the lock act with a code 0 reply gives 200, with a
failing reply gives 500, and on timeout exec gives 504 while the act
endpoint gives 200. -/
theorem c4_witness :
    ExecDeviceCmdResp "whoami" (.replied 1 "boom") = (500, "boom") ∧
    CallDeviceResp "LOCK" .timedOut = (200, "") :=
  ⟨((c4_dispatch_status "LOCK" "whoami" (.replied 1 "boom") (by decide)
      (by decide)).2.1 1 "boom" rfl (by decide)).1,
   ((c4_dispatch_status "LOCK" "whoami" .timedOut (by decide)
      (by decide)).2.2 rfl).2⟩

/-- C4 counterexample: on the /api/device/:act path a device that never
replies (timeout of the one-shot event) produces HTTP 200, not the 504
required by the claim. -/
theorem c4_counterexample :
    (CallDeviceResp "LOCK" .timedOut).1 = 200 ∧ (200 : Nat) ≠ 504 := by decide

/-! ## Bridge garbage collection — server/handler/bridge/bridge.go, func init

Every 15 seconds the sweep walks the bridge table; for a bridge older
than 60 seconds and not in use it closes the src request body, nils out
the contexts, sets the local pointer variable b to nil — and then reads
b.uuid to build the removal queue, which dereferences a nil pointer. -/

/-- bridge.Bridge, restricted to the fields the sweep reads.  The Go
field named using is rendered `inUse` (keyword clash in Lean tactic
blocks); `srcBody` abbreviates Src != nil && Src.Request.Body != nil. -/
structure Bridge where
  creation : Int
  inUse : Bool
  uuid : String
  srcBody : Bool
deriving DecidableEq

/-- Reading a field through a possibly nil Go pointer: a nil dereference
is a runtime panic. -/
def derefUuid : Option Bridge → Except String String
  | some b => .ok b.uuid
  | none => .error "runtime error: invalid memory address or nil pointer dereference"

/-- One iteration of the sweep's IterCb body: for a stale bridge, close
the src body and nil the contexts (registry-neutral), set the iteration
variable b to nil, then read b.uuid for the removal queue. -/
def sweepVisit (timestamp : Int) (b : Bridge) : Except String (List String) :=
  if timestamp - b.creation > 60 ∧ b.inUse = false then
    let bv : Option Bridge := none
    match derefUuid bv with
    | .ok u => .ok [u]
    | .error e => .error e
  else .ok []

/-- The removal queue accumulated over the whole table. -/
def sweepQueue (timestamp : Int) : List (String × Bridge) → Except String (List String)
  | [] => .ok []
  | (_, b) :: rest =>
      match sweepVisit timestamp b with
      | .error e => .error e
      | .ok q =>
          match sweepQueue timestamp rest with
          | .error e => .error e
          | .ok qs => .ok (q ++ qs)

/-- One 15-second sweep: gather the queue, then bridges.Remove(queue...). -/
def sweep (timestamp : Int) (tbl : List (String × Bridge)) :
    Except String (List (String × Bridge)) :=
  match sweepQueue timestamp tbl with
  | .error e => .error e
  | .ok queue => .ok (tbl.filter (fun p => (queue.contains p.1) = false))

/-- C8: the claim is refuted by the code — on a table holding one bridge
that is not in use and 61 seconds old, the sweep dereferences the nil
pointer b (set to nil one line before b.uuid is read) instead of
removing the bridge; a table whose bridges are all in use or fresh is
swept without error and left unchanged. -/
theorem c8_bridge_sweep_nil_deref :
    sweep 61 [("b", { creation := 0, inUse := false, uuid := "b", srcBody := true })] =
      .error "runtime error: invalid memory address or nil pointer dereference" ∧
    sweep 61 [("b", { creation := 0, inUse := true, uuid := "b", srcBody := true })] =
      .ok [("b", { creation := 0, inUse := true, uuid := "b", srcBody := true })] ∧
    sweep 61 [("b", { creation := 30, inUse := false, uuid := "b", srcBody := true })] =
      .ok [("b", { creation := 30, inUse := false, uuid := "b", srcBody := true })] :=
  ⟨rfl, rfl, rfl⟩

/-! ## Strong cipher — utils/utils.go, func Encrypt and func Decrypt

The AES-CTR keystream and the MD5 digest are abstract primitives of the
embedding: `ksf key iv i` is byte i of the keystream generated by
cipher.NewCTR(aes.NewCipher(key), iv), and `md5f buf` is the 16-byte MD5
digest of buf.  Both Go functions are otherwise transliterated. -/

/-- aes.NewCipher succeeds iff the key is 16, 24 or 32 bytes long. -/
def aesKeyOk (key : List Nat) : Bool :=
  key.length == 16 || key.length == 24 || key.length == 32

/-- Stream.XORKeyStream: XOR a buffer against the keystream from absolute
position i on. -/
def streamXor (f : Nat → Nat) (i : Nat) : List Nat → List Nat
  | [] => []
  | b :: rest => (b ^^^ f i) :: streamXor f (i + 1) rest

/-- utils.Encrypt: append the 64-byte CSPRNG nonce (an explicit argument
of the embedding), hash plaintext over nonce with MD5, use the hash as
the CTR initial counter, and emit hash over ciphertext. -/
def Encrypt (ksf : List Nat → List Nat → Nat → Nat) (md5f : List Nat → List Nat)
    (data key nonce : List Nat) : Except String (List Nat) :=
  let buf := data ++ nonce
  let hash := md5f buf
  if aesKeyOk key then .ok (hash ++ streamXor (ksf key hash) 0 buf)
  else .error "crypto/aes: invalid key size"

/-- utils.Decrypt: layout MD5[16] ++ Data[n] ++ Nonce[64]; reject inputs
of 80 bytes or fewer; decrypt beyond the 16-byte hash with the hash as
CTR counter; verify the MD5 of the decrypted buffer; strip the nonce. -/
def Decrypt (ksf : List Nat → List Nat → Nat → Nat) (md5f : List Nat → List Nat)
    (data key : List Nat) : Except String (List Nat) :=
  if data.length ≤ 16 + 64 then .error "common.ENTITY_INVALID"
  else if aesKeyOk key then
    let decBuffer := streamXor (ksf key (data.take 16)) 0 (data.drop 16)
    if md5f decBuffer = data.take 16 then
      .ok (decBuffer.take (data.length - 16 - 64))
    else .error "common.ENTITY_CHECK_FAILED"
  else .error "crypto/aes: invalid key size"

theorem streamXor_streamXor (f : Nat → Nat) (i : Nat) (l : List Nat) :
    streamXor f i (streamXor f i l) = l := by
  induction l generalizing i with
  | nil => rfl
  | cons b rest ih =>
      simp only [streamXor, ih]
      rw [Nat.xor_assoc, Nat.xor_self, Nat.xor_zero]

theorem streamXor_length (f : Nat → Nat) (i : Nat) (l : List Nat) :
    (streamXor f i l).length = l.length := by
  induction l generalizing i with
  | nil => rfl
  | cons b rest ih => simp [streamXor, ih]

/-- C3 (amended): for every non-empty plaintext and 32-byte key the
strong cipher round-trips, Decrypt (Encrypt p k) k = p; the empty
plaintext is the single exception: its 80-byte ciphertext is rejected by
Decrypt's minimum-length check as ENTITY_INVALID. -/
theorem c3_strong_cipher_round_trip (ksf : List Nat → List Nat → Nat → Nat)
    (md5f : List Nat → List Nat) (data key nonce : List Nat)
    (hkey : key.length = 32) (hnonce : nonce.length = 64)
    (hmd5 : (md5f (data ++ nonce)).length = 16) (hdata : data ≠ []) :
    (Encrypt ksf md5f data key nonce).bind (fun c => Decrypt ksf md5f c key) =
      .ok data := by
  have hok : aesKeyOk key = true := by simp [aesKeyOk, hkey]
  have hdlen : 0 < data.length := List.length_pos.2 hdata
  unfold Encrypt
  rw [hok]
  simp only [if_true, Except.bind]
  unfold Decrypt
  have hlen : (md5f (data ++ nonce) ++
      streamXor (ksf key (md5f (data ++ nonce))) 0 (data ++ nonce)).length =
      data.length + 80 := by
    rw [List.length_append, streamXor_length, List.length_append, hmd5, hnonce]
    omega
  rw [hlen]
  rw [if_neg (by omega)]
  rw [hok]
  simp only [if_true]
  have htake : (md5f (data ++ nonce) ++
      streamXor (ksf key (md5f (data ++ nonce))) 0 (data ++ nonce)).take 16 =
      md5f (data ++ nonce) := List.take_left' hmd5
  have hdrop : (md5f (data ++ nonce) ++
      streamXor (ksf key (md5f (data ++ nonce))) 0 (data ++ nonce)).drop 16 =
      streamXor (ksf key (md5f (data ++ nonce))) 0 (data ++ nonce) :=
    List.drop_left' hmd5
  rw [htake, hdrop, streamXor_streamXor]
  rw [if_pos rfl]
  have hfinal : (data ++ nonce).take (data.length + 80 - 16 - 64) = data := by
    have h80 : data.length + 80 - 16 - 64 = data.length := by omega
    rw [h80]
    exact List.take_left data nonce
  rw [hfinal]

/-- A degenerate instantiation of the abstract keystream primitive, used
only to evaluate the cipher model on concrete inputs. -/
def ksZero : List Nat → List Nat → Nat → Nat := fun _ _ _ => 0

/-- A degenerate instantiation of the abstract MD5 primitive (16 zero
bytes for every input), used only to evaluate the model concretely. -/
def md5Zero : List Nat → List Nat := fun _ => List.replicate 16 0

/-- C3 counterexample: for the empty plaintext the ciphertext is exactly
80 bytes long and Decrypt rejects it with ENTITY_INVALID instead of
returning the plaintext back — the round trip fails at p = [].  (The
failure is forced by the length check alone, before the keystream or the
digest is ever consulted.) -/
theorem c3_counterexample :
    (Encrypt ksZero md5Zero [] (List.replicate 32 0) (List.replicate 64 0)).bind
      (fun c => Decrypt ksZero md5Zero c (List.replicate 32 0)) =
      .error "common.ENTITY_INVALID" ∧
    (Except.error "common.ENTITY_INVALID" : Except String (List Nat)) ≠ .ok [] :=
  ⟨rfl, fun h => Except.noConfusion h⟩

/-- C3 witness: a concrete one-byte plaintext round-trips. -/
theorem c3_witness :
    (Encrypt ksZero md5Zero [7] (List.replicate 32 0) (List.replicate 64 0)).bind
      (fun c => Decrypt ksZero md5Zero c (List.replicate 32 0)) = .ok [7] :=
  c3_strong_cipher_round_trip ksZero md5Zero [7] (List.replicate 32 0)
    (List.replicate 64 0) (by simp) (by simp) (by simp [md5Zero]) (by simp)

/-! ## Client config slot — server/handler/generate/generate.go, genConfig

genConfig serializes the client config to JSON, draws a random 16-byte
key, seals the JSON with common.EncAES under that key, and stamps
length-prefix, key, ciphertext and random padding into a 384-byte slot.
The embedding takes the drawn key, the EncAES output and the padding
chunks as explicit arguments (the randomness of the Go code). -/

/-- big.NewInt(n).Bytes(): minimal big-endian representation, empty for
zero.  genConfig only applies this to lengths of at most 382, for which
two bytes suffice. -/
def bigIntBytes (n : Nat) : List Nat :=
  if n = 0 then [] else if n < 256 then [n] else [n / 256, n % 256]

/-- The 2-byte zero-padded big-endian length prefix. -/
def lenBytes (n : Nat) : List Nat :=
  List.replicate (2 - (bigIntBytes n).length) 0 ++ bigIntBytes n

/-- The padding loop: append random 16-byte chunks until the buffer
reaches 384 bytes.  Fuel 384 bounds the recursion; it is never exhausted
because every chunk is non-empty. -/
def padLoop (pad : Nat → List Nat) : Nat → List Nat → List Nat
  | 0, final => final
  | fuel + 1, final =>
      if final.length < 384 then padLoop pad fuel (final ++ pad fuel) else final

/-- genConfig: reject a key-plus-ciphertext payload longer than 382
bytes; otherwise prepend the 2-byte big-endian payload length, pad to at
least 384 bytes with random 16-byte chunks, and cut at 384. -/
def genConfig (key encData : List Nat) (pad : Nat → List Nat) :
    Except String (List Nat) :=
  if 384 - 2 < (key ++ encData).length then
    .error "length of data can not excess buffer size"
  else .ok ((padLoop pad 384 (lenBytes (key ++ encData).length
    ++ (key ++ encData))).take 384)

theorem padLoop_eq_append (pad : Nat → List Nat) (fuel : Nat) (l : List Nat) :
    ∃ t, padLoop pad fuel l = l ++ t := by
  induction fuel generalizing l with
  | zero => exact ⟨[], by simp [padLoop]⟩
  | succ fuel ih =>
      unfold padLoop
      by_cases h : l.length < 384
      · rw [if_pos h]
        obtain ⟨t, ht⟩ := ih (l ++ pad fuel)
        exact ⟨pad fuel ++ t, by rw [ht, List.append_assoc]⟩
      · rw [if_neg h]
        exact ⟨[], by simp⟩

theorem padLoop_length (pad : Nat → List Nat) (hpad : ∀ i, (pad i).length = 16)
    (fuel : Nat) (l : List Nat) (h : 384 ≤ l.length + 16 * fuel) :
    384 ≤ (padLoop pad fuel l).length := by
  induction fuel generalizing l with
  | zero =>
      unfold padLoop
      omega
  | succ fuel ih =>
      unfold padLoop
      by_cases hl : l.length < 384
      · rw [if_pos hl]
        apply ih
        rw [List.length_append, hpad fuel]
        omega
      · rw [if_neg hl]
        omega

theorem lenBytes_length_two (n : Nat) (_h : n < 65536) : (lenBytes n).length = 2 := by
  unfold lenBytes bigIntBytes
  by_cases h0 : n = 0
  · simp [h0]
  · by_cases h1 : n < 256
    · rw [if_neg h0, if_pos h1]
      simp
    · rw [if_neg h0, if_neg h1]
      simp

theorem lenBytes_decode (n : Nat) (_h : n < 65536) :
    (lenBytes n).getD 0 0 * 256 + (lenBytes n).getD 1 0 = n := by
  unfold lenBytes bigIntBytes
  by_cases h0 : n = 0
  · simp [h0]
  · by_cases h1 : n < 256
    · rw [if_neg h0, if_pos h1]
      simp
    · rw [if_neg h0, if_neg h1]
      simp only [List.length_cons, List.length_nil]
      norm_num
      omega

/-- C9 (amended): for a key-plus-ciphertext payload of at most 382 bytes
genConfig returns exactly 384 bytes where bytes 0 and 1 hold, big-endian,
the value 16 + len(ciphertext) — the payload length, without the 2-byte
prefix itself that the claim adds — bytes 2..17 hold the key, the
ciphertext follows at offset 18, and the rest is the padding; a payload
longer than 382 bytes is rejected with the too-large error. -/
theorem c9_config_slot (key encData : List Nat) (pad : Nat → List Nat)
    (hkey : key.length = 16) (hpad : ∀ i, (pad i).length = 16) :
    (key.length + encData.length ≤ 382 →
      ∃ out, genConfig key encData pad = .ok out ∧
        out.length = 384 ∧
        out.getD 0 0 * 256 + out.getD 1 0 = 16 + encData.length ∧
        (out.drop 2).take 16 = key ∧
        (out.drop 18).take encData.length = encData) ∧
    (382 < key.length + encData.length →
      genConfig key encData pad = .error "length of data can not excess buffer size") := by
  constructor
  · intro hsize
    have hfl : (key ++ encData).length = 16 + encData.length := by
      rw [List.length_append, hkey]
    have hn : 16 + encData.length < 65536 := by omega
    have hnot : ¬ 384 - 2 < (key ++ encData).length := by omega
    obtain ⟨t, ht⟩ := padLoop_eq_append pad 384 (lenBytes (key ++ encData).length
      ++ (key ++ encData))
    have hlb2 : (lenBytes (key ++ encData).length).length = 2 := by
      rw [hfl]
      exact lenBytes_length_two _ hn
    have hplen : 384 ≤ (padLoop pad 384 (lenBytes (key ++ encData).length
        ++ (key ++ encData))).length := by
      apply padLoop_length pad hpad
      omega
    have hprefix : (lenBytes (key ++ encData).length ++ (key ++ encData)).length
        = 18 + encData.length := by
      rw [List.length_append, hlb2, hfl]
      omega
    unfold genConfig
    rw [if_neg hnot]
    refine ⟨_, rfl, ?_, ?_, ?_, ?_⟩
    · rw [List.length_take]
      omega
    · -- bytes 0..1: the length prefix survives the take
      rw [ht, List.take_append_eq_append_take]
      rw [ht, List.length_append] at hplen
      have htt : 384 - (lenBytes (key ++ encData).length ++ (key ++ encData)).length
          ≤ t.length := by omega
      rw [List.take_of_length_le (by omega)]
      rw [List.append_assoc]
      have hga : ∀ (l r : List Nat), l.length = 2 →
          (l ++ r).getD 0 0 = l.getD 0 0 ∧ (l ++ r).getD 1 0 = l.getD 1 0 := by
        intro l r hl
        match l, hl with
        | [a, b], _ => simp
      obtain ⟨hg0, hg1⟩ := hga (lenBytes (key ++ encData).length)
        ((key ++ encData) ++ t.take (384 - (lenBytes (key ++ encData).length
          ++ (key ++ encData)).length)) hlb2
      rw [hg0, hg1, hfl]
      exact lenBytes_decode _ hn
    · -- bytes 2..17: the key
      rw [ht, List.take_append_eq_append_take]
      have htk : List.take 384 (lenBytes (key ++ encData).length ++ (key ++ encData))
          = lenBytes (key ++ encData).length ++ (key ++ encData) :=
        List.take_of_length_le (by omega)
      rw [htk, List.append_assoc, List.drop_left' hlb2, List.append_assoc,
        List.take_left' hkey]
    · -- offset 18: the ciphertext
      rw [ht, List.take_append_eq_append_take]
      have htk : List.take 384 (lenBytes (key ++ encData).length ++ (key ++ encData))
          = lenBytes (key ++ encData).length ++ (key ++ encData) :=
        List.take_of_length_le (by omega)
      rw [htk]
      have h18 : (lenBytes (key ++ encData).length ++ key).length = 18 := by
        rw [List.length_append, hlb2, hkey]
      rw [List.append_assoc, List.append_assoc key,
        ← List.append_assoc (lenBytes (key ++ encData).length),
        List.drop_left' h18, List.take_left' rfl]
  · intro hsize
    unfold genConfig
    rw [if_pos (by rw [List.length_append]; omega)]

/-- C9 witness: a 16-byte key with a 20-byte ciphertext produces a
384-byte slot with the documented layout. -/
theorem c9_witness :
    ∃ out, genConfig (List.replicate 16 5) (List.replicate 20 7)
        (fun _ => List.replicate 16 1) = .ok out ∧
      out.length = 384 ∧
      out.getD 0 0 * 256 + out.getD 1 0 = 16 + (List.replicate 20 7).length ∧
      (out.drop 2).take 16 = List.replicate 16 5 ∧
      (out.drop 18).take (List.replicate 20 7).length = List.replicate 20 7 :=
  (c9_config_slot (List.replicate 16 5) (List.replicate 20 7)
    (fun _ => List.replicate 16 1) (by simp) (fun _ => by simp)).1 (by simp)

set_option maxRecDepth 8192 in
/-- C9 counterexample: for a 16-byte key and a 3-byte ciphertext the
slot's first two bytes decode to 19 = 16 + 3, not 21 = 2 + 16 + 3 as the
claim states — the stored length does not include the 2-byte prefix. -/
theorem c9_counterexample :
    (genConfig (List.replicate 16 0) [1, 2, 3] (fun _ => List.replicate 16 9)).toOption.map
      (fun out => out.getD 0 0 * 256 + out.getD 1 0) = some 19 ∧
    (19 : Nat) ≠ 2 + 16 + 3 :=
  ⟨rfl, by decide⟩

end Spark
